import Mathlib

set_option maxRecDepth 8000

namespace ChopChop

/-! Shallow embedding of the ChopChop scan engine: the check matcher and the
two signature filters of core/signatures.go, the severity blocking policy,
the exit decision and the configuration validation of app/scan.go, and an
event model of the dispatch loop of app.Scan.  A Go runtime panic is
modelled as the value none of an Option result.  Go byte strings are
modelled through their character lists, and the helper functions below
embed the library calls strings.Contains, strings.Split and
strings.ToLower that the sources use (ASCII case mapping). -/

/-- Embeds a prefix test on character lists: the whole pattern (first
argument) occurs at the head of the text (second argument). -/
def startsWithChars : List Char → List Char → Bool
  | [], _ => true
  | _ :: _, [] => false
  | p :: ps, t :: ts => p == t && startsWithChars ps ts

/-- Embeds substring search on character lists. -/
def containsChars (pat : List Char) : List Char → Bool
  | [] => startsWithChars pat []
  | c :: ts => startsWithChars pat (c :: ts) || containsChars pat ts

/-- Embeds Go strings.Contains s sub: sub occurs as a contiguous substring
of s. -/
def strContains (s sub : String) : Bool :=
  containsChars sub.data s.data

/-- Embeds Go strings.Split around a one-character separator: the list of
fields, with empty fields kept; the empty string yields one empty field. -/
def splitChars (sep : Char) : List Char → List (List Char)
  | [] => [[]]
  | c :: cs =>
      if c == sep then [] :: splitChars sep cs
      else
        match splitChars sep cs with
        | [] => [[c]]
        | h :: t => (c :: h) :: t

/-- Embeds strings.Split(s, colon) as used by Match for the header entry
format. -/
def goSplitColon (s : String) : List String :=
  (splitChars ':' s.data).map (fun l => ⟨l⟩)

/-- Embeds strings.ToLower with the ASCII case mapping of Char.toLower. -/
def toLowerStr (s : String) : String := ⟨s.data.map Char.toLower⟩

/-- The structure core.Check of signatures.go lines 22-33. -/
structure Check where
  MustMatchOne : List String
  MustMatchAll : List String
  MustNotMatch : List String
  StatusCode : Option Int
  Name : String
  Remediation : String
  Severity : String
  Description : String
  Headers : List String
  NoHeaders : List String
deriving DecidableEq

/-- The structure internal.HTTPResponse as consumed by Match: status code,
decoded body, and the header multimap, modelled as an association list
with the case-sensitive received keys. -/
structure HTTPResponse where
  StatusCode : Int
  Body : String
  Header : List (String × List String)
deriving DecidableEq

/-- One headers-required entry of Match (signatures.go lines 116-130): the
entry is split on the colon, the part before the first colon names the
header; a missing header or a present header none of whose values contains
the substring part fails the check.  When the entry has no colon and the
named header is present with at least one value, the value loop reads
pHeaders at index 1, which is out of range: a Go runtime panic, modelled
as none.  When the header is present with an empty value list the loop
body never runs and the found flag stays false. -/
def headerRequiredEval (hdr : List (String × List String)) (entry : String) :
    Option Bool :=
  match hdr.lookup ((goSplitColon entry).headD "") with
  | none => some false
  | some v =>
      if v = [] then some false
      else if (goSplitColon entry).length < 2 then none
      else some (v.any (fun n => strContains n ((goSplitColon entry).getD 1 "")))

/-- The headers-required loop of Match (lines 115-132): the first failing
entry returns false, a panicking entry aborts the evaluation, otherwise
every entry passes. -/
def matchHeadersRequired (hdr : List (String × List String)) :
    List String → Option Bool
  | [] => some true
  | entry :: rest =>
      match headerRequiredEval hdr entry with
      | none => none
      | some false => some false
      | some true => matchHeadersRequired hdr rest

/-- One headers-forbidden entry of Match (lines 136-148): if the header
named by the part before the first colon is present, the branch at line
138-139 returns false at once, before the substring part is ever read.
When the header is absent, v is the zero-value nil slice, so the value
loop at lines 143-147 has no iteration (in particular its index into
pNoHeaders cannot run) and the entry passes. -/
def noHeaderEntryAbsent (hdr : List (String × List String)) (entry : String) :
    Bool :=
  match hdr.lookup ((goSplitColon entry).headD "") with
  | some _ => false
  | none => true

/-- The headers-forbidden loop of Match (lines 135-150). -/
def matchNoHeaders (hdr : List (String × List String))
    (noHeaders : List String) : Bool :=
  noHeaders.all (noHeaderEntryAbsent hdr)

/-- The method core.Check.Match of signatures.go lines 78-153, in source
order: status code, all-match, one-match, no-match, headers-required,
headers-forbidden; none models a Go panic.  The length guards of the
source around the no-match, headers and no-headers sections only skip
loops that would have no iteration, so they are dropped without change of
meaning; the one-match guard is kept because it changes the result. -/
def Check.Match (check : Check) (resp : HTTPResponse) : Option Bool :=
  if (match check.StatusCode with
      | some sc => resp.StatusCode != sc
      | none => false) then some false
  else if check.MustMatchAll.any (fun m => !strContains resp.Body m) then
    some false
  else if !check.MustMatchOne.isEmpty
      && !check.MustMatchOne.any (fun m => strContains resp.Body m) then
    some false
  else if check.MustNotMatch.any (fun m => strContains resp.Body m) then
    some false
  else
    match matchHeadersRequired resp.Header check.Headers with
    | none => none
    | some false => some false
    | some true => some (matchNoHeaders resp.Header check.NoHeaders)

/-- Modelled from the spec: the severity type of the data package (the
package itself is outside the given sources) is a string-backed
enumeration - scan.go converts it with string(...) - whose four ordered
levels are Informational, Low, Medium and High. -/
abbrev SeverityType := String

/-- The function app.BlockCI of scan.go lines 174-194: a switch on the
configured threshold string; each case returns true when the observed
severity is at or above the threshold level, and every other path falls
through to return false. -/
def BlockCI (severity : String) (severityType : SeverityType) : Bool :=
  if severity = "High" then
    severityType == "High"
  else if severity = "Medium" then
    severityType == "High" || severityType == "Medium"
  else if severity = "Low" then
    severityType == "High" || severityType == "Medium"
      || severityType == "Low"
  else if severity = "Informational" then
    severityType == "High" || severityType == "Medium"
      || severityType == "Low" || severityType == "Informational"
  else false

/-- Specification side: the rank of a severity string on the ordered scale
Informational, Low, Medium, High; none for a string outside the four
levels. -/
def sevRank? (s : String) : Option Nat :=
  if s = "High" then some 3
  else if s = "Medium" then some 2
  else if s = "Low" then some 1
  else if s = "Informational" then some 0
  else none

/-- Specification side (spec section 4.3): block exactly when the
threshold is one of the four levels and the observed severity is a level
greater than or equal to it; an empty or unknown threshold never blocks. -/
def blockSpec (threshold observed : String) : Bool :=
  match sevRank? threshold, sevRank? observed with
  | some t, some o => decide (t ≤ o)
  | _, _ => false

/-- The exit decision of app.Scan (lines 87-88, 119-127 and 159-170):
given the block flag and the severities of the hits the scan produced,
hit records that at least one hit exists and block that some hit severity
triggered BlockCI; the result is true exactly when the process calls
os.Exit(1). -/
def scanExitNonZero (blockedFlag : String)
    (hitSeverities : List SeverityType) : Bool :=
  let hit := !hitSeverities.isEmpty
  let block := hitSeverities.any (fun s => BlockCI blockedFlag s)
  if hit then
    if blockedFlag != "" && !block then false else true
  else false

/-- Events of the dispatch loop of app.Scan (lines 91-143): spawn is the
statement go func(domain) at line 95 launching one goroutine, whose HTTP
requests are then in flight; finish is that goroutine completing.  The
loop launches one goroutine per entry of urlList and the only
synchronization is the WaitGroup joined after the whole loop, so any
interleaving in which each finish has a matching earlier spawn can
occur. -/
inductive ScanEvent
  | spawn
  | finish
deriving DecidableEq

/-- Number of spawn events of a schedule. -/
def countSpawn : List ScanEvent → Nat
  | [] => 0
  | ScanEvent.spawn :: es => countSpawn es + 1
  | ScanEvent.finish :: es => countSpawn es

/-- Number of finish events of a schedule. -/
def countFinish : List ScanEvent → Nat
  | [] => 0
  | ScanEvent.spawn :: es => countFinish es
  | ScanEvent.finish :: es => countFinish es + 1

/-- Running validity of a schedule: c goroutines are in flight, and a
finish event needs one in flight; equivalently, every prefix has at least
as many spawns as finishes. -/
def prefixOk : List ScanEvent → Nat → Bool
  | [], _ => true
  | ScanEvent.spawn :: es, c => prefixOk es (c + 1)
  | ScanEvent.finish :: es, c => decide (0 < c) && prefixOk es (c - 1)

/-- Schedules of a scan over n URLs that the dispatch loop admits: exactly
one spawn and one finish per URL, and no finish before its spawn.  The
code imposes nothing else: it has no semaphore, worker pool or other gate
between spawns. -/
abbrev scanScheduleAdmissible (n : Nat) (es : List ScanEvent) : Prop :=
  countSpawn es = n ∧ countFinish es = n ∧ prefixOk es 0 = true

/-- Auxiliary walk computing the largest number of goroutines
simultaneously in flight along a schedule. -/
def maxInFlightAux : List ScanEvent → Nat → Nat → Nat
  | [], _, m => m
  | ScanEvent.spawn :: es, c, m => maxInFlightAux es (c + 1) (max m (c + 1))
  | ScanEvent.finish :: es, c, m => maxInFlightAux es (c - 1) m

/-- Largest number of goroutines simultaneously in flight along a
schedule. -/
def maxInFlight (es : List ScanEvent) : Nat := maxInFlightAux es 0 0

/-- The schedule in which every request is launched before any completes;
nothing in the dispatch loop prevents it. -/
def allSpawnedFirst (n : Nat) : List ScanEvent :=
  List.replicate n ScanEvent.spawn ++ List.replicate n ScanEvent.finish

/-- The dispatch loop launches one goroutine per URL: wg.Add(len(urlList))
at line 92 and the loop of lines 94-141. -/
def scanDispatchSpawns (urlList : List String) : Nat := urlList.length

/-- A Go slice over a backing array: the slice sees the first len entries
of the backing storage.  The offset is always zero for the slices the
filters build, so it is not modelled. -/
structure Slice (α : Type) where
  backing : List α
  len : Nat
deriving DecidableEq

/-- The elements a slice sees. -/
def Slice.view {α : Type} (s : Slice α) : List α := s.backing.take s.len

/-- Reslicing to length zero, the expression s[:0] at lines 41, 43, 58 and
60: same backing storage, empty view. -/
def Slice.resliceZero {α : Type} (s : Slice α) : Slice α := ⟨s.backing, 0⟩

/-- Go append on a slice: while below capacity (modelled as the backing
length) the element is written in place into the backing array; beyond
capacity a grown array is used.  The filters only append to a reslice of
the array they read, so they never exceed its capacity. -/
def Slice.push {α : Type} (s : Slice α) (x : α) : Slice α :=
  if s.len < s.backing.length then ⟨s.backing.set s.len x, s.len + 1⟩
  else ⟨s.backing ++ [x], s.len + 1⟩

/-- Well-formedness of a slice: the view does not extend past the backing
array.  Every real Go slice satisfies this. -/
abbrev Slice.WF {α : Type} (s : Slice α) : Prop := s.len ≤ s.backing.length

/-- The in-place filtering loop shared by FilterBySeverity and
FilterByNames (lines 41-48 and 58-68): iterate over the elements,
appending the kept (possibly updated) ones to a length-zero reslice of
the same storage.  The iteration is written over the original view: in
the source the range reads the live backing array, but every write lands
at an index at or below the one being read, and a write at the index
being read stores the value just read, so the two readings agree. -/
def inPlaceFilterMap {α : Type} (s : Slice α) (f : α → Option α) : Slice α :=
  s.view.foldl
    (fun acc x =>
      match f x with
      | some y => acc.push y
      | none => acc)
    s.resliceZero

/-- The structure core.Plugin of signatures.go lines 13-19. -/
structure Plugin where
  Endpoints : List String
  Endpoint : String
  QueryString : String
  Checks : Slice Check
  FollowRedirects : Bool
deriving DecidableEq

/-- The structure core.Signatures of signatures.go lines 9-11.  The Go
plugin entries are pointers; they are modelled by value, which captures
the aliasing the claims are about (the check slices and the plugin list
itself). -/
structure Signatures where
  Plugins : Slice Plugin
deriving DecidableEq

/-- Well-formedness of a signature set: its plugin slice and every check
slice in view are well formed. -/
abbrev Signatures.WF (s : Signatures) : Prop :=
  s.Plugins.WF ∧ ∀ p ∈ s.Plugins.view, p.Checks.WF

/-- The per-plugin body shared by both filters (lines 43-52 and 60-72):
filter the checks of the plugin in place; when at least one check
remains, keep the plugin with its Checks field replaced by the filtered
slice, otherwise drop it. -/
def keepChecks (pred : Check → Bool) (plugin : Plugin) : Option Plugin :=
  let filteredChecks :=
    inPlaceFilterMap plugin.Checks
      (fun check => if pred check then some check else none)
  if 0 < filteredChecks.len then
    some { plugin with Checks := filteredChecks }
  else none

/-- The outer in-place loop shared by both filters (lines 41-54 and
58-74). -/
def filterSignatures (pred : Check → Bool) (s : Signatures) : Signatures :=
  ⟨inPlaceFilterMap s.Plugins (keepChecks pred)⟩

/-- The method core.Signatures.FilterBySeverity of signatures.go lines
40-55: keep the checks whose Severity equals the filter exactly. -/
def Signatures.FilterBySeverity (s : Signatures) (severityFilter : String) :
    Signatures :=
  filterSignatures (fun check => check.Severity == severityFilter) s

/-- The name test of FilterByNames (lines 62-66): some name of the list
occurs in the check name, both lowered. -/
def nameMatches (names : List String) (check : Check) : Bool :=
  names.any (fun name => strContains (toLowerStr check.Name) (toLowerStr name))

/-- The method core.Signatures.FilterByNames of signatures.go lines
57-75. -/
def Signatures.FilterByNames (s : Signatures) (names : List String) :
    Signatures :=
  filterSignatures (nameMatches names) s

/-- A check of the data.Config schema as read by app.CheckStructFields:
the source tests Description, Remediation and Severity against nil, so
these are pointer fields, modelled as options; PluginName names the
owning plugin in the fatal messages. -/
structure ConfCheck where
  PluginName : String
  Description : Option String
  Remediation : Option String
  Severity : Option String
deriving DecidableEq

/-- A plugin of the data.Config schema; only its check list is read by the
validation. -/
structure ConfPlugin where
  Checks : List ConfCheck
deriving DecidableEq

/-- The configuration as read by the validation. -/
structure Config where
  Plugins : List ConfPlugin
deriving DecidableEq

/-- Modelled from the spec: data.SeverityType.IsValid of the data package
(outside the given sources); per spec section 3 and the fatal message at
scan.go line 212 itself, exactly the four levels are valid. -/
def severityIsValid (s : String) : Bool :=
  s == "Informational" || s == "Low" || s == "Medium" || s == "High"

/-- The per-check tests of app.CheckStructFields (scan.go lines 200-214)
in source order; some msg models log.Fatal(msg), which stops the process
at the first violation. -/
def checkFieldsError (check : ConfCheck) : Option String :=
  match check.Description with
  | none => some ("Missing description field in " ++ check.PluginName
      ++ " plugin checks. Stopping execution.")
  | some _ =>
    match check.Remediation with
    | none => some ("Missing remediation field in " ++ check.PluginName
        ++ " plugin checks. Stopping execution.")
    | some _ =>
      match check.Severity with
      | none => some ("Missing severity field in " ++ check.PluginName
          ++ " plugin checks. Stopping execution.")
      | some sev =>
          if severityIsValid sev then none
          else some (" ------ Unknown severity type : " ++ sev
              ++ " . Only Informational / Low / Medium / High are valid severity types.")

/-- The inner loop of CheckStructFields over the checks of one plugin. -/
def checksErrors : List ConfCheck → Option String
  | [] => none
  | c :: cs =>
      match checkFieldsError c with
      | some e => some e
      | none => checksErrors cs

/-- The outer loop of CheckStructFields over the plugins. -/
def pluginsErrors : List ConfPlugin → Option String
  | [] => none
  | p :: ps =>
      match checksErrors p.Checks with
      | some e => some e
      | none => pluginsErrors ps

/-- The function app.CheckStructFields of scan.go lines 196-217: the first
fatal validation error, if any. -/
def CheckStructFields (conf : Config) : Option String :=
  pluginsErrors conf.Plugins

/-- Scan validates before dispatching: the call at line 86 precedes the
request loop at lines 94-141, and log.Fatal ends the process, so a
configuration with a validation error issues no request at all. -/
def scanIssuedRequests (conf : Config) (urls : List String) : List String :=
  match CheckStructFields conf with
  | some _ => []
  | none => urls

/-! Concrete inputs used by the closed theorems below. -/

/-- A check with every condition unset. -/
def baseCheck : Check :=
  { MustMatchOne := [], MustMatchAll := [], MustNotMatch := [],
    StatusCode := none, Name := "", Remediation := "", Severity := "",
    Description := "", Headers := [], NoHeaders := [] }

/-- A named check with no condition at all. -/
def vacuousCheck : Check := { baseCheck with Name := "vacuous" }

/-- An arbitrary plain response. -/
def plainResp : HTTPResponse :=
  { StatusCode := 200, Body := "hello", Header := [] }

/-- A check combining a colon-free headers-required entry with a
headers-forbidden entry. -/
def c1Check : Check :=
  { baseCheck with
    Name := "c1", Headers := ["X-Api"],
    NoHeaders := ["X-Frame-Options:deny"] }

/-- A response presenting both headers of c1Check. -/
def c1Resp : HTTPResponse :=
  { StatusCode := 200, Body := "",
    Header := [("X-Api", ["k"]), ("X-Frame-Options", ["sameorigin"])] }

/-- The same check with a well-formed headers-required entry. -/
def c1WellFormedCheck : Check := { c1Check with Headers := ["X-Api:k"] }

/-- A check whose headers-required entry has no colon. -/
def c10Check : Check :=
  { baseCheck with Name := "c10", Headers := ["X-Frame-Options"] }

/-- A response presenting that header with one value. -/
def c10Resp : HTTPResponse :=
  { StatusCode := 200, Body := "", Header := [("X-Frame-Options", ["deny"])] }

/-- A low-severity check. -/
def lowCheck : Check := { baseCheck with Name := "low-check", Severity := "Low" }

/-- A high-severity check. -/
def highCheck : Check := { baseCheck with Name := "high-check", Severity := "High" }

/-- A plugin holding the two checks above. -/
def demoPlugin : Plugin :=
  { Endpoints := ["/demo"], Endpoint := "/demo", QueryString := "",
    Checks := ⟨[lowCheck, highCheck], 2⟩, FollowRedirects := true }

/-- A signature set holding that plugin. -/
def demoSigs : Signatures := ⟨⟨[demoPlugin], 1⟩⟩

/-- A check named Admin-Panel. -/
def adminCheck : Check := { baseCheck with Name := "Admin-Panel", Severity := "High" }

/-- A check named Panel. -/
def panelCheck : Check := { baseCheck with Name := "Panel", Severity := "High" }

/-- A plugin holding the two named checks. -/
def namesPlugin : Plugin := { demoPlugin with Checks := ⟨[adminCheck, panelCheck], 2⟩ }

/-- A signature set holding that plugin. -/
def namesSigs : Signatures := ⟨⟨[namesPlugin], 1⟩⟩

/-- A configuration check with all fields present but an unknown severity. -/
def badSeverityCheck : ConfCheck :=
  { PluginName := "MyPlugin", Description := some "desc",
    Remediation := some "rem", Severity := some "Critical" }

/-- A configuration holding that check. -/
def badConfig : Config := ⟨[⟨[badSeverityCheck]⟩]⟩

/-- A fully valid configuration check. -/
def goodCheckConf : ConfCheck :=
  { PluginName := "GoodPlugin", Description := some "desc",
    Remediation := some "rem", Severity := some "High" }

/-- A configuration holding that check. -/
def goodConfig : Config := ⟨[⟨[goodCheckConf]⟩]⟩

/-! Severity and blocking policy. -/

/-- BlockCI agrees with the ordered-scale description pointwise. -/
theorem blockCI_eq (t o : String) : BlockCI t o = blockSpec t o := by
  unfold BlockCI blockSpec sevRank?
  by_cases h1 : t = "High" <;> by_cases h2 : t = "Medium" <;>
    by_cases h3 : t = "Low" <;> by_cases h4 : t = "Informational" <;>
    by_cases o1 : o = "High" <;> by_cases o2 : o = "Medium" <;>
    by_cases o3 : o = "Low" <;> by_cases o4 : o = "Informational" <;>
    simp_all

/-! The dispatch-loop event model. -/

theorem countSpawn_append (l₁ l₂ : List ScanEvent) :
    countSpawn (l₁ ++ l₂) = countSpawn l₁ + countSpawn l₂ := by
  induction l₁ with
  | nil => simp [countSpawn]
  | cons e es ih => cases e <;> simp [countSpawn, ih] <;> omega

theorem countFinish_append (l₁ l₂ : List ScanEvent) :
    countFinish (l₁ ++ l₂) = countFinish l₁ + countFinish l₂ := by
  induction l₁ with
  | nil => simp [countFinish]
  | cons e es ih => cases e <;> simp [countFinish, ih] <;> omega

theorem countSpawn_replicate_spawn (n : Nat) :
    countSpawn (List.replicate n ScanEvent.spawn) = n := by
  induction n with
  | zero => rfl
  | succ k ih => simp [List.replicate_succ, countSpawn, ih]

theorem countSpawn_replicate_finish (n : Nat) :
    countSpawn (List.replicate n ScanEvent.finish) = 0 := by
  induction n with
  | zero => rfl
  | succ k ih => simp [List.replicate_succ, countSpawn, ih]

theorem countFinish_replicate_spawn (n : Nat) :
    countFinish (List.replicate n ScanEvent.spawn) = 0 := by
  induction n with
  | zero => rfl
  | succ k ih => simp [List.replicate_succ, countFinish, ih]

theorem countFinish_replicate_finish (n : Nat) :
    countFinish (List.replicate n ScanEvent.finish) = n := by
  induction n with
  | zero => rfl
  | succ k ih => simp [List.replicate_succ, countFinish, ih]

theorem prefixOk_spawn_replicate (n : Nat) :
    ∀ (rest : List ScanEvent) (c : Nat),
      prefixOk (List.replicate n ScanEvent.spawn ++ rest) c
        = prefixOk rest (c + n) := by
  induction n with
  | zero => intro rest c; rfl
  | succ k ih =>
      intro rest c
      rw [List.replicate_succ, List.cons_append]
      show prefixOk (List.replicate k ScanEvent.spawn ++ rest) (c + 1) = _
      rw [ih rest (c + 1)]
      congr 1
      omega

theorem prefixOk_finish_replicate (n : Nat) :
    ∀ c : Nat, n ≤ c →
      prefixOk (List.replicate n ScanEvent.finish) c = true := by
  induction n with
  | zero => intro c _; rfl
  | succ k ih =>
      intro c h
      rw [List.replicate_succ]
      show (decide (0 < c) && prefixOk (List.replicate k ScanEvent.finish) (c - 1)) = true
      rw [ih (c - 1) (by omega)]
      simp
      omega

theorem maxInFlightAux_spawn_replicate (n : Nat) :
    ∀ (rest : List ScanEvent) (c m : Nat), c ≤ m →
      maxInFlightAux (List.replicate n ScanEvent.spawn ++ rest) c m
        = maxInFlightAux rest (c + n) (max m (c + n)) := by
  induction n with
  | zero =>
      intro rest c m h
      simp [Nat.max_eq_left h]
  | succ k ih =>
      intro rest c m _
      rw [List.replicate_succ, List.cons_append]
      show maxInFlightAux (List.replicate k ScanEvent.spawn ++ rest) (c + 1) (max m (c + 1)) = _
      rw [ih rest (c + 1) (max m (c + 1)) (le_max_right m (c + 1))]
      have e1 : c + 1 + k = c + (k + 1) := by omega
      have e2 : max (max m (c + 1)) (c + 1 + k) = max m (c + (k + 1)) := by
        rw [max_assoc, Nat.max_eq_right (show c + 1 ≤ c + 1 + k by omega), e1]
      rw [e2, e1]

theorem maxInFlightAux_finish_replicate (n : Nat) :
    ∀ (c m : Nat),
      maxInFlightAux (List.replicate n ScanEvent.finish) c m = m := by
  induction n with
  | zero => intro c m; rfl
  | succ k ih =>
      intro c m
      rw [List.replicate_succ]
      show maxInFlightAux (List.replicate k ScanEvent.finish) (c - 1) m = m
      exact ih (c - 1) m

/-- The all-launched-first schedule is admitted for any URL count. -/
theorem scanScheduleAdmissible_allSpawnedFirst (n : Nat) :
    scanScheduleAdmissible n (allSpawnedFirst n) := by
  refine ⟨?_, ?_, ?_⟩
  · rw [allSpawnedFirst, countSpawn_append, countSpawn_replicate_spawn,
      countSpawn_replicate_finish]
    omega
  · rw [allSpawnedFirst, countFinish_append, countFinish_replicate_spawn,
      countFinish_replicate_finish]
    omega
  · rw [allSpawnedFirst, prefixOk_spawn_replicate]
    exact prefixOk_finish_replicate n (0 + n) (by omega)

/-- Along the all-launched-first schedule every request is in flight at
once. -/
theorem maxInFlight_allSpawnedFirst (n : Nat) :
    maxInFlight (allSpawnedFirst n) = n := by
  rw [maxInFlight, allSpawnedFirst,
    maxInFlightAux_spawn_replicate n _ 0 0 (Nat.le_refl 0),
    maxInFlightAux_finish_replicate]
  simp

/-! The in-place filtering law of the two signature filters. -/

/-- Unfolding of push below capacity. -/
theorem Slice.push_lt {α : Type} (s : Slice α) (x : α)
    (h : s.len < s.backing.length) :
    s.push x = ⟨s.backing.set s.len x, s.len + 1⟩ := by
  unfold Slice.push
  rw [if_pos h]

/-- Writing at the seam of a compacted prefix: setting the cell right after
the kept prefix overwrites the first leftover element. -/
theorem backing_set_mid {α : Type} (out B : List α) (y : α)
    (h : out.length < B.length) :
    (out ++ B.drop out.length).set out.length y
      = (out ++ [y]) ++ B.drop (out.length + 1) := by
  have hlen : out.length < (out ++ B.drop out.length).length := by
    simp only [List.length_append, List.length_drop]
    omega
  rw [List.set_eq_take_cons_drop y hlen, List.take_left]
  have hd : (out ++ B.drop out.length).drop (out.length + 1)
      = B.drop (out.length + 1) :=
    calc (out ++ B.drop out.length).drop (out.length + 1)
        = ((out ++ B.drop out.length).drop out.length).drop 1 :=
          (List.drop_drop 1 out.length _).symm
      _ = (B.drop out.length).drop 1 := by rw [List.drop_left]
      _ = B.drop (out.length + 1) := List.drop_drop 1 out.length B
  rw [hd]
  simp

/-- The fold of inPlaceFilterMap, started after a compacted prefix out over
the backing array B, compacts the kept elements of the remaining input
after out and leaves the tail of B in place. -/
theorem inPlaceFoldl {α : Type} (f : α → Option α) :
    ∀ (l out B : List α), out.length + l.length ≤ B.length →
      List.foldl
          (fun acc x =>
            match f x with
            | some y => acc.push y
            | none => acc)
          (⟨out ++ B.drop out.length, out.length⟩ : Slice α) l
        = ⟨(out ++ l.filterMap f) ++ B.drop (out ++ l.filterMap f).length,
            (out ++ l.filterMap f).length⟩ := by
  intro l
  induction l with
  | nil =>
      intro out B _
      simp
  | cons x xs ih =>
      intro out B h
      rw [List.length_cons] at h
      rw [List.foldl_cons]
      cases hfx : f x with
      | none =>
          simp only [hfx]
          rw [ih out B (by omega)]
          simp [List.filterMap_cons, hfx]
      | some y =>
          simp only [hfx]
          have hlt : out.length < B.length := by omega
          have hbl : (Slice.mk (out ++ B.drop out.length) out.length).len
              < (Slice.mk (out ++ B.drop out.length) out.length).backing.length := by
            show out.length < (out ++ B.drop out.length).length
            simp only [List.length_append, List.length_drop]
            omega
          rw [Slice.push_lt _ y hbl]
          show List.foldl _
              (⟨(out ++ B.drop out.length).set out.length y, out.length + 1⟩ : Slice α) xs = _
          rw [backing_set_mid out B y hlt]
          have e1 : out.length + 1 = (out ++ [y]).length := by simp
          have e2 : B.drop (out.length + 1) = B.drop (out ++ [y]).length := by simp
          have hb2 : (out ++ [y]).length + xs.length ≤ B.length := by
            simp only [List.length_append, List.length_cons, List.length_nil]
            omega
          rw [e2, e1, ih (out ++ [y]) B hb2]
          simp [List.filterMap_cons, hfx]

/-- The in-place filter compacts the kept elements to the front of the
original backing array and leaves the tail beyond them unchanged. -/
theorem inPlaceFilterMap_spec {α : Type} (s : Slice α) (f : α → Option α)
    (h : s.WF) :
    inPlaceFilterMap s f
      = ⟨s.view.filterMap f ++ s.backing.drop (s.view.filterMap f).length,
          (s.view.filterMap f).length⟩ := by
  have hlen : ([] : List α).length + s.view.length ≤ s.backing.length := by
    simp only [List.length_nil, Slice.view, List.length_take]
    omega
  have h0 := inPlaceFoldl f s.view [] s.backing hlen
  unfold inPlaceFilterMap Slice.resliceZero
  simpa using h0

/-- The view of the filtered slice is the filtered view. -/
theorem inPlaceFilterMap_view {α : Type} (s : Slice α) (f : α → Option α)
    (h : s.WF) :
    (inPlaceFilterMap s f).view = s.view.filterMap f := by
  rw [inPlaceFilterMap_spec s f h]
  show ((s.view.filterMap f) ++ _).take (s.view.filterMap f).length = _
  rw [List.take_left]

/-- The in-place filter keeps slices well formed. -/
theorem inPlaceFilterMap_WF {α : Type} (s : Slice α) (f : α → Option α)
    (h : s.WF) :
    (inPlaceFilterMap s f).WF := by
  rw [inPlaceFilterMap_spec s f h]
  show (s.view.filterMap f).length ≤ _
  simp [List.length_append]

/-- Keeping each element on a boolean test is filtering. -/
theorem filterMap_keep_eq_filter {α : Type} (pred : α → Bool) (l : List α) :
    l.filterMap (fun x => if pred x then some x else none) = l.filter pred := by
  induction l with
  | nil => rfl
  | cons a l ih =>
      by_cases h : pred a <;> simp [List.filterMap_cons, List.filter_cons, h, ih]

/-- A filterMap that maps every member to itself is the identity. -/
theorem filterMap_id_of_mem {α : Type} (l : List α) (f : α → Option α)
    (h : ∀ a ∈ l, f a = some a) : l.filterMap f = l := by
  induction l with
  | nil => rfl
  | cons a l ih =>
      rw [List.filterMap_cons, h a (by simp)]
      rw [ih (fun b hb => h b (by simp [hb]))]

/-- Unfolding of the per-plugin filter body through the in-place law. -/
theorem keepChecks_eq (pred : Check → Bool) (p : Plugin) (h : p.Checks.WF) :
    keepChecks pred p
      = (if 0 < (p.Checks.view.filter pred).length then
          some { p with Checks :=
            ⟨p.Checks.view.filter pred
                ++ p.Checks.backing.drop (p.Checks.view.filter pred).length,
              (p.Checks.view.filter pred).length⟩ }
        else none) := by
  unfold keepChecks
  rw [inPlaceFilterMap_spec _ _ h, filterMap_keep_eq_filter]

/-- What a kept plugin is. -/
theorem keepChecks_some (pred : Check → Bool) (p p' : Plugin)
    (h : p.Checks.WF) (hk : keepChecks pred p = some p') :
    p' = { p with Checks :=
        ⟨p.Checks.view.filter pred
            ++ p.Checks.backing.drop (p.Checks.view.filter pred).length,
          (p.Checks.view.filter pred).length⟩ }
      ∧ 0 < (p.Checks.view.filter pred).length := by
  rw [keepChecks_eq pred p h] at hk
  by_cases hl : 0 < (p.Checks.view.filter pred).length
  · rw [if_pos hl] at hk
    exact ⟨(Option.some.inj hk).symm, hl⟩
  · rw [if_neg hl] at hk
    cases hk

/-- A kept plugin sees exactly the filtered checks. -/
theorem keepChecks_some_view (pred : Check → Bool) (p p' : Plugin)
    (h : p.Checks.WF) (hk : keepChecks pred p = some p') :
    p'.Checks.view = p.Checks.view.filter pred := by
  obtain ⟨hp', _⟩ := keepChecks_some pred p p' h hk
  rw [hp']
  show (p.Checks.view.filter pred ++ _).take (p.Checks.view.filter pred).length = _
  rw [List.take_left]

/-- A kept plugin has a well-formed check slice. -/
theorem keepChecks_some_WF (pred : Check → Bool) (p p' : Plugin)
    (h : p.Checks.WF) (hk : keepChecks pred p = some p') :
    p'.Checks.WF := by
  obtain ⟨hp', _⟩ := keepChecks_some pred p p' h hk
  rw [hp']
  show (p.Checks.view.filter pred).length ≤ _
  simp [List.length_append]

/-- Filtering a kept plugin again keeps it unchanged. -/
theorem keepChecks_idem (pred : Check → Bool) (p p' : Plugin)
    (h : p.Checks.WF) (hk : keepChecks pred p = some p') :
    keepChecks pred p' = some p' := by
  obtain ⟨hp', hl⟩ := keepChecks_some pred p p' h hk
  have hwf' : p'.Checks.WF := keepChecks_some_WF pred p p' h hk
  have hview : p'.Checks.view = p.Checks.view.filter pred :=
    keepChecks_some_view pred p p' h hk
  have hfilter : p'.Checks.view.filter pred = p'.Checks.view := by
    rw [hview]
    exact List.filter_eq_self.mpr (fun a ha => (List.mem_filter.mp ha).2)
  have hC : p'.Checks
      = ⟨p.Checks.view.filter pred
            ++ p.Checks.backing.drop (p.Checks.view.filter pred).length,
          (p.Checks.view.filter pred).length⟩ := by
    rw [hp']
  have hbacking : p'.Checks.backing.drop p'.Checks.view.length
      = p.Checks.backing.drop (p.Checks.view.filter pred).length := by
    rw [hview, hC]
    exact List.drop_left _ _
  rw [keepChecks_eq pred p' hwf', hfilter]
  rw [if_pos (by rw [hview]; exact hl)]
  rw [hbacking, hview, ← hC]

/-- Unfolding of both filters through the in-place law. -/
theorem filterSignatures_eq (pred : Check → Bool) (s : Signatures)
    (h : s.WF) :
    filterSignatures pred s
      = ⟨⟨s.Plugins.view.filterMap (keepChecks pred)
            ++ s.Plugins.backing.drop
                (s.Plugins.view.filterMap (keepChecks pred)).length,
          (s.Plugins.view.filterMap (keepChecks pred)).length⟩⟩ := by
  unfold filterSignatures
  rw [inPlaceFilterMap_spec _ _ h.1]

/-- The filtered signature set sees exactly the kept plugins. -/
theorem filterSignatures_view (pred : Check → Bool) (s : Signatures)
    (h : s.WF) :
    (filterSignatures pred s).Plugins.view
      = s.Plugins.view.filterMap (keepChecks pred) := by
  unfold filterSignatures
  exact inPlaceFilterMap_view _ _ h.1

/-- Filtering keeps the signature set well formed. -/
theorem filterSignatures_WF (pred : Check → Bool) (s : Signatures)
    (h : s.WF) :
    (filterSignatures pred s).WF := by
  constructor
  · exact inPlaceFilterMap_WF _ _ h.1
  · intro p' hp'
    rw [filterSignatures_view pred s h] at hp'
    obtain ⟨p, hp, hk⟩ := List.mem_filterMap.mp hp'
    exact keepChecks_some_WF pred p p' (h.2 p hp) hk

/-- Both filters are idempotent, including the backing storage. -/
theorem filterSignatures_idem (pred : Check → Bool) (s : Signatures)
    (h : s.WF) :
    filterSignatures pred (filterSignatures pred s) = filterSignatures pred s := by
  have h1 : (filterSignatures pred s).WF := filterSignatures_WF pred s h
  have hid : ∀ p' ∈ (filterSignatures pred s).Plugins.view,
      keepChecks pred p' = some p' := by
    intro p' hp'
    rw [filterSignatures_view pred s h] at hp'
    obtain ⟨p, hp, hk⟩ := List.mem_filterMap.mp hp'
    exact keepChecks_idem pred p p' (h.2 p hp) hk
  rw [filterSignatures_eq pred (filterSignatures pred s) h1,
    filterMap_id_of_mem _ _ hid, filterSignatures_view pred s h,
    filterSignatures_eq pred s h]
  simp [List.drop_left]

/-! Matcher lemmas. -/

/-- With every headers-required entry splitting into at least two fields,
the headers-required loop cannot panic. -/
theorem headerRequiredEval_ne_none (hdr : List (String × List String))
    (e : String) (he : 2 ≤ (goSplitColon e).length) :
    headerRequiredEval hdr e ≠ none := by
  intro hcon
  unfold headerRequiredEval at hcon
  split at hcon
  · cases hcon
  · split_ifs at hcon
    omega

/-- With every headers-required entry splitting into at least two fields,
the headers-required loop cannot panic. -/
theorem matchHeadersRequired_isSome (hdr : List (String × List String))
    (hs : List String) (h : ∀ e ∈ hs, 2 ≤ (goSplitColon e).length) :
    (matchHeadersRequired hdr hs).isSome = true := by
  induction hs with
  | nil => rfl
  | cons e rest ih =>
      have hne := headerRequiredEval_ne_none hdr e (h e (by simp))
      have hrest : ∀ x ∈ rest, 2 ≤ (goSplitColon x).length :=
        fun x hx => h x (by simp [hx])
      show (match headerRequiredEval hdr e with
          | none => none
          | some false => some false
          | some true => matchHeadersRequired hdr rest).isSome = true
      cases hev : headerRequiredEval hdr e with
      | none => exact absurd hev hne
      | some b =>
          cases b with
          | false => rfl
          | true => exact ih hrest

/-- A forbidden header that is present makes the headers-forbidden loop
fail. -/
theorem matchNoHeaders_false_of_present (hdr : List (String × List String))
    (noHeaders : List String)
    (h : ∃ e ∈ noHeaders, (hdr.lookup ((goSplitColon e).headD "")).isSome = true) :
    matchNoHeaders hdr noHeaders = false := by
  obtain ⟨e, he, hp⟩ := h
  unfold matchNoHeaders
  refine List.all_eq_false.mpr ⟨e, he, ?_⟩
  unfold noHeaderEntryAbsent
  obtain ⟨v, hv⟩ := Option.isSome_iff_exists.mp hp
  rw [hv]
  simp

/-! Validation lemmas. -/

/-- The inner validation loop passes exactly when every check of the
plugin passes. -/
theorem checksErrors_eq_none_iff (cs : List ConfCheck) :
    checksErrors cs = none ↔ ∀ c ∈ cs, checkFieldsError c = none := by
  induction cs with
  | nil => simp [checksErrors]
  | cons c cs ih =>
      unfold checksErrors
      cases hc : checkFieldsError c with
      | none => simp [hc, ih, List.forall_mem_cons]
      | some e =>
          refine iff_of_false (by simp) (fun hall => ?_)
          rw [hall c (by simp)] at hc
          cases hc

/-- The whole validation passes exactly when every check of every plugin
passes. -/
theorem pluginsErrors_eq_none_iff (ps : List ConfPlugin) :
    pluginsErrors ps = none
      ↔ ∀ p ∈ ps, ∀ c ∈ p.Checks, checkFieldsError c = none := by
  induction ps with
  | nil => simp [pluginsErrors]
  | cons p ps ih =>
      unfold pluginsErrors
      cases hc : checksErrors p.Checks with
      | none =>
          have hall := (checksErrors_eq_none_iff p.Checks).mp hc
          rw [List.forall_mem_cons]
          exact ⟨fun hps => ⟨hall, ih.mp hps⟩, fun hps => ih.mpr hps.2⟩
      | some e =>
          refine iff_of_false (by simp) (fun hall => ?_)
          have : checksErrors p.Checks = none :=
            (checksErrors_eq_none_iff p.Checks).mpr (hall p (by simp))
          rw [this] at hc
          cases hc

/-! Claim theorems. -/

/-- C1, counterexample: a check with a non-empty headers-forbidden list
whose named header is present in the response header map, for which Match
does not return false: the colon-free headers-required entry of the same
check panics first (the evaluation yields none, not some false). -/
theorem c1_counterexample :
    c1Check.NoHeaders ≠ []
      ∧ (c1Resp.Header.lookup
          ((goSplitColon "X-Frame-Options:deny").headD "")).isSome = true
      ∧ Check.Match c1Check c1Resp = none := by decide

/-- C1, amended: for every check whose headers-required entries all carry
a colon (each splits into at least two fields, so Match cannot panic) and
every response whose header map contains the name part of some
headers-forbidden entry as a key, Match returns false, regardless of
whether any value of that header contains the substring part of the
entry. -/
theorem c1_amended (check : Check) (resp : HTTPResponse)
    (hH : ∀ e ∈ check.Headers, 2 ≤ (goSplitColon e).length)
    (_hne : check.NoHeaders ≠ [])
    (hpresent : ∃ e ∈ check.NoHeaders,
        (resp.Header.lookup ((goSplitColon e).headD "")).isSome = true) :
    Check.Match check resp = some false := by
  unfold Check.Match
  split_ifs with h1 h2 h3 h4
  · rfl
  · rfl
  · rfl
  · rfl
  · cases hm : matchHeadersRequired resp.Header check.Headers with
    | none =>
        have hsome := matchHeadersRequired_isSome resp.Header check.Headers hH
        rw [hm] at hsome
        cases hsome
    | some b =>
        cases b with
        | false => rfl
        | true =>
            rw [matchNoHeaders_false_of_present resp.Header check.NoHeaders hpresent]

/-- C1, witness for the amended theorem at a concrete input. -/
theorem c1_amended_witness : Check.Match c1WellFormedCheck c1Resp = some false :=
  c1_amended c1WellFormedCheck c1Resp (by decide) (by decide) (by decide)

/-- C2: BlockCI is a pure function of the threshold string and the
observed severity, true exactly when the threshold is one of the four
levels and the observed severity is greater than or equal to it on the
scale Informational, Low, Medium, High; in particular the empty
threshold, which has no rank, never blocks. -/
theorem c2_blockCI_ordered (threshold observed : String) :
    BlockCI threshold observed = blockSpec threshold observed :=
  blockCI_eq threshold observed

/-- C3: the scan exits non-zero exactly when at least one hit was
produced and either the block flag is empty or some hit severity reaches
the configured threshold. -/
theorem c3_exit_code (blockedFlag : String) (hitSeverities : List SeverityType) :
    scanExitNonZero blockedFlag hitSeverities
      = (!hitSeverities.isEmpty
          && (blockedFlag == ""
              || hitSeverities.any (fun s => blockSpec blockedFlag s))) := by
  unfold scanExitNonZero
  have hb : (hitSeverities.any (fun s => BlockCI blockedFlag s))
      = hitSeverities.any (fun s => blockSpec blockedFlag s) := by
    simp only [blockCI_eq]
  rw [hb]
  cases hitSeverities with
  | nil => rfl
  | cons a l =>
      by_cases hf : blockedFlag = ""
      · subst hf
        simp
      · cases hany : (a :: l).any (fun s => blockSpec blockedFlag s) with
        | false => simp [hf, hany]
        | true => simp [hf, hany]

/-- C4, counterexample: with two URLs and the concurrency limit one, the
dispatch loop admits the schedule launching both goroutines before either
request completes, so two requests are in flight at one instant. -/
theorem c4_counterexample :
    scanScheduleAdmissible (scanDispatchSpawns ["u1", "u2"]) (allSpawnedFirst 2)
      ∧ maxInFlight (allSpawnedFirst 2) = 2
      ∧ ¬ maxInFlight (allSpawnedFirst 2) ≤ 1 := by decide

/-- C4, amended: the dispatch loop of Scan launches one ungated goroutine
per URL, and for every URL list it admits the schedule in which all
requests are in flight simultaneously; the in-flight count is bounded
only by the number of URLs, not by any configured limit (Scan reads no
concurrency flag at all). -/
theorem c4_amended (urls : List String) :
    scanScheduleAdmissible (scanDispatchSpawns urls)
        (allSpawnedFirst (scanDispatchSpawns urls))
      ∧ maxInFlight (allSpawnedFirst (scanDispatchSpawns urls)) = urls.length :=
  ⟨scanScheduleAdmissible_allSpawnedFirst urls.length,
    maxInFlight_allSpawnedFirst urls.length⟩

/-- C5, counterexample: after FilterBySeverity, an alias of the original
check slice of the demo plugin (its backing storage with the pre-call
length two) no longer observes the original contents: it sees the kept
high-severity check compacted to the front, twice. -/
theorem c5_counterexample :
    Slice.view
        (⟨(((Signatures.FilterBySeverity demoSigs "High").Plugins.view.headD
              demoPlugin).Checks).backing,
          demoPlugin.Checks.len⟩ : Slice Check)
      ≠ demoPlugin.Checks.view := by decide

/-- C5, amended: the filters work in place, reusing the original backing
storage: the kept plugins, and within each surviving plugin the kept
checks, are compacted to the front of the original backing array, whose
tail past the kept elements is left as residue; an alias of the original
plugin list or of an original check list therefore observes these
compacted contents rather than the original ones. -/
theorem c5_amended (s : Signatures) (sev : String) (h : s.WF) :
    (Signatures.FilterBySeverity s sev).Plugins.backing
        = (Signatures.FilterBySeverity s sev).Plugins.view
          ++ s.Plugins.backing.drop (Signatures.FilterBySeverity s sev).Plugins.len
      ∧ ∀ p ∈ s.Plugins.view,
          (inPlaceFilterMap p.Checks
              (fun check => if check.Severity == sev then some check else none)).backing
            = p.Checks.view.filter (fun check => check.Severity == sev)
              ++ p.Checks.backing.drop
                  (p.Checks.view.filter (fun check => check.Severity == sev)).length := by
  constructor
  · unfold Signatures.FilterBySeverity
    rw [filterSignatures_view _ s h, filterSignatures_eq _ s h]
  · intro p hp
    rw [inPlaceFilterMap_spec _ _ (h.2 p hp), filterMap_keep_eq_filter]

/-- C5, witness for the amended theorem at a concrete input. -/
theorem c5_amended_witness :
    (Signatures.FilterBySeverity demoSigs "High").Plugins.backing
        = (Signatures.FilterBySeverity demoSigs "High").Plugins.view
          ++ demoSigs.Plugins.backing.drop
              (Signatures.FilterBySeverity demoSigs "High").Plugins.len
      ∧ ∀ p ∈ demoSigs.Plugins.view,
          (inPlaceFilterMap p.Checks
              (fun check => if check.Severity == "High" then some check else none)).backing
            = p.Checks.view.filter (fun check => check.Severity == "High")
              ++ p.Checks.backing.drop
                  (p.Checks.view.filter (fun check => check.Severity == "High")).length :=
  c5_amended demoSigs "High" (by decide)

/-- C6: FilterBySeverity with a fixed level is idempotent, and its result
keeps exactly checks of that severity, every one taken from the original
signature set, dropping every plugin left with zero checks. -/
theorem c6_filterBySeverity (s : Signatures) (L : String) (h : s.WF) :
    Signatures.FilterBySeverity (Signatures.FilterBySeverity s L) L
        = Signatures.FilterBySeverity s L
      ∧ ∀ p' ∈ (Signatures.FilterBySeverity s L).Plugins.view,
          p'.Checks.view ≠ []
            ∧ ∀ c ∈ p'.Checks.view,
                c.Severity = L ∧ ∃ p ∈ s.Plugins.view, c ∈ p.Checks.view := by
  constructor
  · exact filterSignatures_idem _ s h
  · intro p' hp'
    unfold Signatures.FilterBySeverity at hp'
    rw [filterSignatures_view _ s h] at hp'
    obtain ⟨p, hp, hk⟩ := List.mem_filterMap.mp hp'
    have hwf := h.2 p hp
    have hv := keepChecks_some_view _ p p' hwf hk
    obtain ⟨_, hl⟩ := keepChecks_some _ p p' hwf hk
    refine ⟨?_, ?_⟩
    · rw [hv]
      exact List.length_pos.mp hl
    · intro c hc
      rw [hv] at hc
      have hm := List.mem_filter.mp hc
      exact ⟨eq_of_beq hm.2, p, hp, hm.1⟩

/-- C6, witness at a concrete signature set. -/
theorem c6_witness :
    Signatures.FilterBySeverity (Signatures.FilterBySeverity demoSigs "High") "High"
        = Signatures.FilterBySeverity demoSigs "High"
      ∧ ∀ p' ∈ (Signatures.FilterBySeverity demoSigs "High").Plugins.view,
          p'.Checks.view ≠ []
            ∧ ∀ c ∈ p'.Checks.view,
                c.Severity = "High" ∧ ∃ p ∈ demoSigs.Plugins.view, c ∈ p.Checks.view :=
  c6_filterBySeverity demoSigs "High" (by decide)

/-- C7: FilterByNames keeps exactly the checks whose name contains some
given name as a case-insensitive substring and drops every plugin left
with zero checks: every surviving check matches and comes from the
original set, and every matching original check survives. -/
theorem c7_filterByNames (s : Signatures) (names : List String) (h : s.WF)
    (_hn : names ≠ []) :
    (∀ p' ∈ (Signatures.FilterByNames s names).Plugins.view,
        p'.Checks.view ≠ []
          ∧ ∀ c ∈ p'.Checks.view,
              nameMatches names c = true ∧ ∃ p ∈ s.Plugins.view, c ∈ p.Checks.view)
      ∧ ∀ p ∈ s.Plugins.view, ∀ c ∈ p.Checks.view,
          nameMatches names c = true →
            ∃ p' ∈ (Signatures.FilterByNames s names).Plugins.view,
              c ∈ p'.Checks.view := by
  constructor
  · intro p' hp'
    unfold Signatures.FilterByNames at hp'
    rw [filterSignatures_view _ s h] at hp'
    obtain ⟨p, hp, hk⟩ := List.mem_filterMap.mp hp'
    have hwf := h.2 p hp
    have hv := keepChecks_some_view _ p p' hwf hk
    obtain ⟨_, hl⟩ := keepChecks_some _ p p' hwf hk
    refine ⟨?_, ?_⟩
    · rw [hv]
      exact List.length_pos.mp hl
    · intro c hc
      rw [hv] at hc
      have hm := List.mem_filter.mp hc
      exact ⟨hm.2, p, hp, hm.1⟩
  · intro p hp c hc hmatch
    have hwf := h.2 p hp
    have hkf : c ∈ p.Checks.view.filter (nameMatches names) :=
      List.mem_filter.mpr ⟨hc, hmatch⟩
    have hl : 0 < (p.Checks.view.filter (nameMatches names)).length :=
      List.length_pos_of_mem hkf
    refine ⟨{ p with Checks :=
        ⟨p.Checks.view.filter (nameMatches names)
            ++ p.Checks.backing.drop (p.Checks.view.filter (nameMatches names)).length,
          (p.Checks.view.filter (nameMatches names)).length⟩ }, ?_, ?_⟩
    · unfold Signatures.FilterByNames
      rw [filterSignatures_view _ s h]
      refine List.mem_filterMap.mpr ⟨p, hp, ?_⟩
      rw [keepChecks_eq _ p hwf, if_pos hl]
    · show c ∈ (p.Checks.view.filter (nameMatches names)
          ++ p.Checks.backing.drop
              (p.Checks.view.filter (nameMatches names)).length).take
            (p.Checks.view.filter (nameMatches names)).length
      rw [List.take_left]
      exact hkf

/-- C7, witness at a concrete signature set: the filter list admin keeps
the check named Admin-Panel and drops the one named Panel. -/
theorem c7_witness :
    (∀ p' ∈ (Signatures.FilterByNames namesSigs ["admin"]).Plugins.view,
        p'.Checks.view ≠ []
          ∧ ∀ c ∈ p'.Checks.view,
              nameMatches ["admin"] c = true
                ∧ ∃ p ∈ namesSigs.Plugins.view, c ∈ p.Checks.view)
      ∧ ∀ p ∈ namesSigs.Plugins.view, ∀ c ∈ p.Checks.view,
          nameMatches ["admin"] c = true →
            ∃ p' ∈ (Signatures.FilterByNames namesSigs ["admin"]).Plugins.view,
              c ∈ p'.Checks.view :=
  c7_filterByNames namesSigs ["admin"] (by decide) (by decide)

/-- C8: a check with no condition configured matches every response. -/
theorem c8_vacuous_match (check : Check) (resp : HTTPResponse)
    (h1 : check.StatusCode = none) (h2 : check.MustMatchAll = [])
    (h3 : check.MustMatchOne = []) (h4 : check.MustNotMatch = [])
    (h5 : check.Headers = []) (h6 : check.NoHeaders = []) :
    Check.Match check resp = some true := by
  unfold Check.Match
  rw [h1, h2, h3, h4, h5, h6]
  rfl

/-- C8, witness at a concrete check and response. -/
theorem c8_witness : Check.Match vacuousCheck plainResp = some true :=
  c8_vacuous_match vacuousCheck plainResp rfl rfl rfl rfl rfl rfl

/-- C9, counterexample: a check whose severity is the unknown string
Critical is rejected with a fatal message that does not name the
offending plugin, contradicting that every validation error identifies
the offending plugin or check. -/
theorem c9_counterexample :
    CheckStructFields badConfig
        = some " ------ Unknown severity type : Critical . Only Informational / Low / Medium / High are valid severity types."
      ∧ strContains
          " ------ Unknown severity type : Critical . Only Informational / Low / Medium / High are valid severity types."
          "MyPlugin" = false := by decide

/-- C9, amended: validation fails exactly when some check is missing its
description, remediation or severity or carries a severity outside the
four levels, a fully valid configuration passes, the missing-field fatal
messages name the plugin of the offending check, the unknown-severity
fatal message reports only the invalid severity string, and a
configuration with a validation error issues no request. -/
theorem c9_amended (conf : Config) :
    (CheckStructFields conf = none
        ↔ ∀ p ∈ conf.Plugins, ∀ c ∈ p.Checks, checkFieldsError c = none)
      ∧ (∀ c : ConfCheck, checkFieldsError c = none
          ↔ c.Description.isSome = true ∧ c.Remediation.isSome = true
              ∧ ∃ sev, c.Severity = some sev ∧ severityIsValid sev = true)
      ∧ (∀ c : ConfCheck, c.Description = none →
          checkFieldsError c = some ("Missing description field in "
            ++ c.PluginName ++ " plugin checks. Stopping execution."))
      ∧ (∀ c : ConfCheck, ∀ d, c.Description = some d → c.Remediation = none →
          checkFieldsError c = some ("Missing remediation field in "
            ++ c.PluginName ++ " plugin checks. Stopping execution."))
      ∧ (∀ c : ConfCheck, ∀ d r, c.Description = some d → c.Remediation = some r →
          c.Severity = none →
          checkFieldsError c = some ("Missing severity field in "
            ++ c.PluginName ++ " plugin checks. Stopping execution."))
      ∧ (∀ c : ConfCheck, ∀ d r sev, c.Description = some d →
          c.Remediation = some r → c.Severity = some sev →
          severityIsValid sev = false →
          checkFieldsError c = some (" ------ Unknown severity type : " ++ sev
            ++ " . Only Informational / Low / Medium / High are valid severity types."))
      ∧ (∀ urls : List String, (CheckStructFields conf).isSome = true →
          scanIssuedRequests conf urls = []) := by
  refine ⟨?_, ?_, ?_, ?_, ?_, ?_, ?_⟩
  · exact pluginsErrors_eq_none_iff conf.Plugins
  · intro c
    unfold checkFieldsError
    cases hd : c.Description with
    | none => simp [hd]
    | some d =>
        cases hr : c.Remediation with
        | none => simp [hd, hr]
        | some r =>
            cases hs : c.Severity with
            | none => simp [hd, hr, hs]
            | some sev =>
                by_cases hvv : severityIsValid sev = true
                · simp [hd, hr, hs, hvv]
                · simp [hd, hr, hs, hvv]
  · intro c hd
    unfold checkFieldsError
    rw [hd]
  · intro c d hd hr
    unfold checkFieldsError
    rw [hd, hr]
  · intro c d r hd hr hs
    unfold checkFieldsError
    rw [hd, hr, hs]
  · intro c d r sev hd hr hs hvv
    unfold checkFieldsError
    rw [hd, hr, hs]
    simp [hvv]
  · intro urls hsome
    unfold scanIssuedRequests
    cases hc : CheckStructFields conf with
    | none =>
        rw [hc] at hsome
        cases hsome
    | some e => rfl

/-- C9, witness for the amended theorem: the fully valid configuration
passes. -/
theorem c9_amended_witness : CheckStructFields goodConfig = none :=
  (c9_amended goodConfig).1.mpr (by decide)

/-- C10: Match is not total when a headers-required entry lacks a colon:
on a concrete check whose entry has no colon (the split has a single
field) and a response presenting that entire entry string as a header
with one value, the evaluation panics (none) instead of returning a
boolean. -/
theorem c10_headers_out_of_range :
    Check.Match c10Check c10Resp = none
      ∧ (goSplitColon "X-Frame-Options").length = 1
      ∧ c10Resp.Header.lookup "X-Frame-Options" = some ["deny"] := by decide

end ChopChop
